import Mathlib

/-!
Shallow embedding of a user-space WireGuard tunnel implementation
(src/wireguard.rs, src/peer.rs, src/interface.rs, src/utils.rs, src/main.rs).

Strings from the Rust source are modelled as lists of characters (`Str`),
byte buffers as lists of naturals.  External collaborators (base64 decoding,
IP-address string parsing, integer parsing, DNS resolution of endpoints,
the boringtun `Tunn` engine, the OS route table, the UDP socket and the tun
device) are abstracted: parsing primitives become a `Prims` record of
functions, the engine becomes a record of result-producing functions, and
network sends become entries of an output trace.
-/

namespace WG

/-- Character-list strings, mirroring Rust `&str` contents. -/
abbrev Str := List Char

/-- Rust `str::trim` (left part): drop leading whitespace. -/
def trimLeft (s : Str) : Str := s.dropWhile (fun c => c.isWhitespace)

/-- Rust `str::trim` (right part): drop trailing whitespace. -/
def trimRight (s : Str) : Str := (trimLeft s.reverse).reverse

/-- Rust `str::trim`: drop leading and trailing whitespace. -/
def trim (s : Str) : Str := trimLeft (trimRight s)

/-- Split at the first occurrence of `c`: mirrors `splitn(2, c)` when it
finds a separator; `none` when `c` does not occur (the second `parts.next()`
of the Rust code yields `None`). -/
def splitFirst (c : Char) : Str → Option (Str × Str)
  | [] => none
  | x :: xs =>
    if x = c then some ([], xs)
    else (splitFirst c xs).map (fun p => (x :: p.1, p.2))

/-- Split at every occurrence of `c`: mirrors Rust `str::split(c)`,
which always yields at least one (possibly empty) piece. -/
def splitAll (c : Char) : Str → List Str
  | [] => [[]]
  | x :: xs =>
    if x = c then [] :: splitAll c xs
    else
      match splitAll c xs with
      | [] => [[x]]
      | a :: rest => (x :: a) :: rest

/-- Config sections, from `enum Section` in wireguard.rs. -/
inductive Section where
  | interface
  | peer
  | none
deriving DecidableEq, Repr

/-- External parsing/decoding primitives used by utils.rs and peer.rs:
base64 decoding (base64 crate), the x25519 curve check of
`PublicKey::try_from`, `IpAddr::from_str`, `u8`/`u16` integer parsing and
`to_socket_addrs` endpoint resolution.  IP addresses and socket addresses
are identified by naturals. -/
structure Prims where
  base64Decode : Str → Option (List Nat)
  curveCheck : List Nat → Bool
  parseIp : Str → Option Nat
  parseU8 : Str → Option Nat
  parseU16 : Str → Option Nat
  resolveEndpoint : Str → Except String Nat

/-- utils.rs `decode_private_key`: base64 decode, then a 32-byte length
check (`StaticSecret::from` itself cannot fail). -/
def decode_private_key (prims : Prims) (s : Str) : Except String (List Nat) :=
  match prims.base64Decode s with
  | Option.none => Except.error "Private key base64 decode failed"
  | Option.some d =>
    if d.length ≠ 32 then Except.error "Invalid private key len"
    else Except.ok d

/-- utils.rs `decode_public_key`: base64 decode, 32-byte length check,
then the `PublicKey::try_from` curve check. -/
def decode_public_key (prims : Prims) (s : Str) : Except String (List Nat) :=
  match prims.base64Decode s with
  | Option.none => Except.error "Public key base64 decode failed"
  | Option.some d =>
    if d.length ≠ 32 then Except.error "Invalid public key len"
    else if prims.curveCheck d then Except.ok d
    else Except.error "Curve check failed"

/-- utils.rs `parse_cidr`: split on every slash, parse the first piece as
an IP and the second as a `u8`; further pieces are ignored, and a string
with no slash has no second piece, hence `none`. -/
def parse_cidr (prims : Prims) (s : Str) : Option (Nat × Nat) :=
  match splitAll '/' s with
  | ip :: mask :: _ =>
    match prims.parseIp ip, prims.parseU8 mask with
    | Option.some i, Option.some m => some (i, m)
    | _, _ => Option.none
  | _ => Option.none

/-- utils.rs `parse_address`. -/
def parse_address (prims : Prims) (s : Str) : Except String (Nat × Nat) :=
  match parse_cidr prims s with
  | Option.none => Except.error "Parse address failed"
  | Option.some a => Except.ok a

/-- utils.rs `parse_dns`. -/
def parse_dns (prims : Prims) (s : Str) : Except String Nat :=
  match prims.parseIp s with
  | Option.none => Except.error "Parse dns failed"
  | Option.some i => Except.ok i

/-- utils.rs `parse_allowed_ips`: parse each CIDR, failing on the first
bad one. -/
def parse_allowed_ips (prims : Prims) : List Str → Except String (List (Nat × Nat))
  | [] => Except.ok []
  | c :: cs =>
    match parse_cidr prims c with
    | Option.none => Except.error "Parse allowed_ips"
    | Option.some a =>
      match parse_allowed_ips prims cs with
      | Except.error e => Except.error e
      | Except.ok rest => Except.ok (a :: rest)

/-- Errors of the boringtun engine, from `WireGuardError`; only
`ConnectionExpired` is distinguished by the source. -/
inductive WireGuardError where
  | connectionExpired
  | otherErr (code : Nat)
deriving DecidableEq, Repr

/-- The boringtun `TunnResult` outcome categories. -/
inductive TunnResult where
  | writeToNetwork (packet : List Nat)
  | writeToTunnelV4 (packet : List Nat) (addr : Nat)
  | writeToTunnelV6 (packet : List Nat) (addr : Nat)
  | done
  | err (e : WireGuardError)
deriving DecidableEq, Repr

/-- The external boringtun `Tunn` engine of one peer, abstracted by the
results it returns: `decapsulate`/`encapsulate` on fresh input as functions
of the input, `decapsulate` on empty input as a queue of successive results
(the engine buffers finitely many pending network-bound packets),
`update_timers` as one result, `format_handshake_initiation` as a queue of
successive results. -/
structure Tunn where
  decapsulate : List Nat → TunnResult
  drainQueue : List TunnResult
  encapsulate : List Nat → TunnResult
  update_timers : TunnResult
  fhiQueue : List TunnResult

/-- One observable I/O emission of a peer session: a UDP send to an
endpoint or a write to the tun device. -/
inductive Send where
  | toSocket (endpoint : Nat) (packet : List Nat)
  | toTun (packet : List Nat)
deriving DecidableEq, Repr

/-- interface.rs `Interface`. -/
structure Interface where
  private_key : Option (List Nat)
  address : Option (Nat × Nat)
  dns : Option (List Nat)
  listen_port : Option Nat

/-- interface.rs `Interface::new`. -/
def Interface.new : Interface :=
  { private_key := Option.none, address := Option.none
    dns := Option.none, listen_port := Option.none }

/-- peer.rs `Peer`: configuration fields plus the runtime wiring
(`send_socket`/`send_tun` presence, the engine handle). -/
structure Peer where
  public_key : Option (List Nat)
  allowed_ips : Option (List (Nat × Nat))
  persistent_keepalive : Option Nat
  endpoint : Option Nat
  send_socket : Option Unit
  send_tun : Option Unit
  tunn : Option Tunn

/-- peer.rs `Peer::new`. -/
def Peer.new : Peer :=
  { public_key := Option.none, allowed_ips := Option.none
    persistent_keepalive := Option.none, endpoint := Option.none
    send_socket := Option.none, send_tun := Option.none, tunn := Option.none }

/-- wireguard.rs `WireGuard` (the `route_stack` only matters in `run`,
modelled separately). -/
structure WireGuard where
  interface : Option Interface
  peers : Option (List Peer)

/-- wireguard.rs `WireGuard::new`. -/
def WireGuard.new : WireGuard :=
  { interface := Option.none, peers := some [] }

/-- wireguard.rs `WireGuard::add_peer`: push at the end of the peer list. -/
def addPeer (wg : WireGuard) (p : Peer) : WireGuard :=
  { wg with peers := some (match wg.peers with
      | Option.some ps => ps ++ [p]
      | Option.none => [p]) }

/-- wireguard.rs `parse_section_header`: requires a leading bracket and a
trailing bracket, then matches the trimmed, lowercased interior; an
unrecognized name yields `Section.none`. -/
def parse_section_header (line : Str) : Option Section :=
  if line.head? = some '[' ∧ line.getLast? = some ']' then
    let sec := (trim ((line.drop 1).dropLast)).map Char.toLower
    if sec = "interface".toList then some Section.interface
    else if sec = "peer".toList then some Section.peer
    else some Section.none
  else Option.none

/-- wireguard.rs `parse_key_value`: split at the first equals sign; the key
is the trimmed left part, the values are the comma-split, trimmed, nonempty
pieces of the remainder. -/
def parse_key_value (line : Str) : Option (Str × List Str) :=
  match splitFirst '=' line with
  | Option.none => Option.none
  | Option.some p =>
    some (trim p.1, ((splitAll ',' p.2).map trim).filter (fun v => v ≠ []))

/-- Content of an `[Interface]` key-value line, from the `Section::Interface`
match arm of `from_content`: setters may fail; a key with no value is a
silent no-op (`values.first()` is `None`); an unknown key is fatal. -/
def handleInterfaceKey (prims : Prims) (i : Interface) (key : Str)
    (values : List Str) : Except String Interface :=
  if key = "PrivateKey".toList then
    match values.head? with
    | Option.some v =>
      match decode_private_key prims v with
      | Except.error e => Except.error e
      | Except.ok k => Except.ok { i with private_key := some k }
    | Option.none => Except.ok i
  else if key = "Address".toList then
    match values.head? with
    | Option.some v =>
      match parse_address prims v with
      | Except.error e => Except.error e
      | Except.ok a => Except.ok { i with address := some a }
    | Option.none => Except.ok i
  else if key = "ListenPort".toList then
    match values.head? with
    | Option.some v =>
      match prims.parseU16 v with
      | Option.some n => Except.ok { i with listen_port := some n }
      | Option.none => Except.error "invalid u16"
    | Option.none => Except.ok i
  else if key = "DNS".toList then
    match (values.mapM (fun v => (parse_dns prims v).toOption)) with
    | Option.some ds => Except.ok { i with dns := some ds }
    | Option.none => Except.error "Parse dns failed"
  else Except.error "Unexpected Interface Key"

/-- Content of a `[Peer]` key-value line, from the `Section::Peer` match arm
of `from_content`. -/
def handlePeerKey (prims : Prims) (p : Peer) (key : Str)
    (values : List Str) : Except String Peer :=
  if key = "PublicKey".toList then
    match values.head? with
    | Option.some v =>
      match decode_public_key prims v with
      | Except.error e => Except.error e
      | Except.ok k => Except.ok { p with public_key := some k }
    | Option.none => Except.ok p
  else if key = "AllowedIPs".toList then
    match parse_allowed_ips prims values with
    | Except.error e => Except.error e
    | Except.ok ips => Except.ok { p with allowed_ips := some ips }
  else if key = "Endpoint".toList then
    match values.head? with
    | Option.some v =>
      match prims.resolveEndpoint v with
      | Except.error e => Except.error e
      | Except.ok ep => Except.ok { p with endpoint := some ep }
    | Option.none => Except.ok p
  else if key = "PersistentKeepalive".toList then
    match values.head? with
    | Option.some v =>
      match prims.parseU16 v with
      | Option.some n => Except.ok { p with persistent_keepalive := some n }
      | Option.none => Except.error "invalid u16"
    | Option.none => Except.ok p
  else Except.error "Unexpected Peer Key"

/-- Mutable state of the `from_content` parsing loop. -/
structure LoopState where
  wg : WireGuard
  interface : Interface
  curPeer : Option Peer
  curSection : Section

/-- One iteration of the `from_content` loop on one raw line: trim, skip
blank and comment lines, handle a section header, otherwise handle a
key-value line; a line that is neither is skipped.  The `curPeer.unwrap()`
of the source can only be reached with `curPeer` set (a `[Peer]` header
always precedes `Section::Peer`); the unreachable `None` case is modelled
as an error. -/
def processLine (prims : Prims) (st : LoopState) (rawLine : Str) :
    Except String LoopState :=
  let line := trim rawLine
  if line = [] then Except.ok st
  else if line.head? = some '#' then Except.ok st
  else
    match parse_section_header line with
    | Option.some Section.interface =>
      if st.curSection ≠ Section.none then
        Except.error "The First Section must be [Interface]"
      else Except.ok { st with curSection := Section.interface }
    | Option.some Section.peer =>
      if st.curSection = Section.none then
        Except.error "Setup [Interface] before [Peer]"
      else
        let wg := match st.curPeer with
          | Option.some p => addPeer st.wg p
          | Option.none => st.wg
        Except.ok { st with wg := wg, curPeer := some Peer.new
                            curSection := Section.peer }
    | Option.some Section.none => Except.error "Unexpected session"
    | Option.none =>
      match parse_key_value line with
      | Option.some kv =>
        match st.curSection with
        | Section.interface =>
          match handleInterfaceKey prims st.interface kv.1 kv.2 with
          | Except.error e => Except.error e
          | Except.ok i => Except.ok { st with interface := i }
        | Section.peer =>
          match st.curPeer with
          | Option.some p =>
            match handlePeerKey prims p kv.1 kv.2 with
            | Except.error e => Except.error e
            | Except.ok p2 => Except.ok { st with curPeer := some p2 }
          | Option.none => Except.error "unwrap on None"
        | Section.none => Except.error "Unexpected session"
      | Option.none => Except.ok st

/-- End of `from_content`: flush the pending peer, install the interface. -/
def finishParse (st : LoopState) : WireGuard :=
  let wg := match st.curPeer with
    | Option.some p => addPeer st.wg p
    | Option.none => st.wg
  { wg with interface := some st.interface }

/-- The `from_content` line loop over the remaining lines. -/
def parseLoop (prims : Prims) (st : LoopState) : List Str →
    Except String WireGuard
  | [] => Except.ok (finishParse st)
  | l :: rest =>
    match processLine prims st l with
    | Except.error e => Except.error e
    | Except.ok st2 => parseLoop prims st2 rest

/-- Initial state of the `from_content` loop. -/
def initState : LoopState :=
  { wg := WireGuard.new, interface := Interface.new
    curPeer := Option.none, curSection := Section.none }

/-- wireguard.rs `WireGuard::from_content`, over the already split lines of
the configuration text. -/
def from_content (prims : Prims) (lines : List Str) :
    Except String WireGuard :=
  parseLoop prims initState lines

/-- Is a `TunnResult` a `WriteToNetwork`? -/
def isWTN : TunnResult → Bool
  | TunnResult.writeToNetwork _ => true
  | _ => false

/-- Payload of a `WriteToNetwork` result (junk on other variants). -/
def wtnPacket : TunnResult → List Nat
  | TunnResult.writeToNetwork p => p
  | _ => []

/-- The drain loop of peer.rs: keep calling `decapsulate` with empty input
and sending, while the engine keeps answering `WriteToNetwork`; the first
other answer stops the loop. -/
def drainSends (ep : Nat) : List TunnResult → List Send
  | TunnResult.writeToNetwork p :: rest => Send.toSocket ep p :: drainSends ep rest
  | _ => []

/-- peer.rs `Peer::handle_socket_packet`, returning the trace of sends (all
sends are modelled as succeeding).  A missing engine handle skips the whole
body; `Done` and `WriteToTunnelV6` are ignored; an `Err` engine result is
the unexpected-result error. -/
def handle_socket_packet (p : Peer) (src : List Nat) :
    Except String (List Send) :=
  match p.tunn with
  | Option.none => Except.ok []
  | Option.some e =>
    match e.decapsulate src with
    | TunnResult.writeToNetwork packet =>
      match p.send_socket with
      | Option.none => Except.error "Missing send socket"
      | Option.some _ =>
        match p.endpoint with
        | Option.none => Except.error "Missing endpoint"
        | Option.some ep =>
          Except.ok (Send.toSocket ep packet :: drainSends ep e.drainQueue)
    | TunnResult.writeToTunnelV4 packet _ =>
      match p.send_tun with
      | Option.none => Except.error "Tun device not found"
      | Option.some _ => Except.ok [Send.toTun packet]
    | TunnResult.done => Except.ok []
    | TunnResult.writeToTunnelV6 _ _ => Except.ok []
    | TunnResult.err _ => Except.error "Unexpect wireguard result"

/-- peer.rs `Peer::handle_tun_packet`: encapsulate, send on
`WriteToNetwork` and drain with empty-input decapsulation; only `Done` is
otherwise ignored — tunnel-bound and `Err` results are unexpected here. -/
def handle_tun_packet (p : Peer) (src : List Nat) :
    Except String (List Send) :=
  match p.tunn with
  | Option.none => Except.ok []
  | Option.some e =>
    match e.encapsulate src with
    | TunnResult.writeToNetwork packet =>
      match p.send_socket with
      | Option.none => Except.error "Udp socket not found"
      | Option.some _ =>
        match p.endpoint with
        | Option.none => Except.error "Missing endpoint"
        | Option.some ep =>
          Except.ok (Send.toSocket ep packet :: drainSends ep e.drainQueue)
    | TunnResult.done => Except.ok []
    | _ => Except.error "Unexpect wireguard result"

/-- peer.rs `Peer::handle_routine_task_result`: on `Err(ConnectionExpired)`
ask the engine for a fresh handshake initiation and re-enter with that
result.  The successive `format_handshake_initiation` results are the
`fhiQueue` of the engine; the recursion is structural on that queue, and an
exhausted queue (never reached under the engine contract that a fresh
initiation does not expire) is modelled as an error. -/
def handle_routine_task_result (p : Peer) :
    List TunnResult → TunnResult → Except String (List Send)
  | _, TunnResult.writeToNetwork packet =>
    (match p.send_socket with
     | Option.none => Except.error "Udp socket not found"
     | Option.some _ =>
       match p.endpoint with
       | Option.none => Except.error "Missing endpoint"
       | Option.some ep => Except.ok [Send.toSocket ep packet])
  | q, TunnResult.err WireGuardError.connectionExpired =>
    (match q with
     | [] => Except.error "handshake queue exhausted"
     | r :: rest => handle_routine_task_result p rest r)
  | _, TunnResult.err _ => Except.error "Handle failed"
  | _, TunnResult.done => Except.ok []
  | _, _ => Except.error "handle_routine_task unexpected result"

/-- peer.rs `Peer::handle_routine_task`: `update_timers`, then the result
state machine; a missing engine handle skips the body. -/
def handle_routine_task (p : Peer) : Except String (List Send) :=
  match p.tunn with
  | Option.none => Except.ok []
  | Option.some e => handle_routine_task_result p e.fhiQueue e.update_timers

/-- An OS route as built in `run`: destination CIDR, the interface address
as gateway, metric 0 (the tun device index/name, identical on every route,
is left out of the model). -/
structure Route where
  destination : Nat
  mask : Nat
  gateway : Nat
  metric : Nat
deriving DecidableEq, Repr

/-- Outcome of the modelled startup portion of `run`: success, an error
result, or a Rust panic (an `unwrap` of `None`). -/
inductive RunOutcome (α : Type) where
  | ok (val : α)
  | err (msg : String)
  | panicked
deriving DecidableEq, Repr

/-- The dispatch structures built by `run`: the `DashMap` from endpoint to
peer, the ordered `allowed_ips_peer_map` range list, the `route_stack` and
the housekeeping list; peers are identified by their index in the config
order. -/
structure StartupState where
  endpointMap : List (Nat × Nat)
  allowedMap : List ((Nat × Nat) × Nat)
  routeStack : List Route
  routinePeers : List Nat
deriving DecidableEq, Repr

/-- `DashMap::insert`: replace the value at an existing key, else append. -/
def insertAssoc (m : List (Nat × Nat)) (k v : Nat) : List (Nat × Nat) :=
  match m with
  | [] => [(k, v)]
  | kv :: rest =>
    if kv.1 = k then (k, v) :: rest else kv :: insertAssoc rest k v

/-- Body of the per-range loop of `run`: push one route (destination range,
tun device, interface address as gateway, metric 0) and one range-list
entry. -/
def pushRange (ifaceAddr idx : Nat) (acc : StartupState) (ip : Nat × Nat) :
    StartupState :=
  { acc with
    routeStack := acc.routeStack ++
      [{ destination := ip.1, mask := ip.2, gateway := ifaceAddr, metric := 0 }]
    allowedMap := acc.allowedMap ++ [(ip, idx)] }

/-- The per-peer setup loop of `run` (wireguard.rs lines 203-248): check
the interface private key and the peer public key (`Tunn::new` arguments),
unwrap the peer's `allowed_ips` (a panic when absent), register the
endpoint, then push one route and one range-list entry per allowed range,
and finally register the peer for housekeeping.  External effects
(socket/tun attachment, `Tunn::new`, `route_manager.add`) are assumed to
succeed. -/
def setupPeers (private_key : Option (List Nat)) (ifaceAddr : Nat) :
    Nat → StartupState → List Peer → RunOutcome StartupState
  | _, st, [] => RunOutcome.ok st
  | idx, st, p :: rest =>
    match private_key with
    | Option.none => RunOutcome.err "Missing interface private key"
    | Option.some _ =>
      match p.public_key with
      | Option.none => RunOutcome.err "Missing peer public key"
      | Option.some _ =>
        match p.allowed_ips with
        | Option.none => RunOutcome.panicked
        | Option.some ips =>
          let st1 := match p.endpoint with
            | Option.some ep =>
              { st with endpointMap := insertAssoc st.endpointMap ep idx }
            | Option.none => st
          let st2 := ips.foldl (pushRange ifaceAddr idx) st1
          setupPeers private_key ifaceAddr (idx + 1)
            { st2 with routinePeers := st2.routinePeers ++ [idx] } rest

/-- The startup portion of `run` (wireguard.rs lines 151-248): interface
presence check, then — after the external route-manager creation, bind
address discovery and UDP bind, all assumed successful — the interface
address check, the external tun creation, the `self.peers.take().unwrap()`
(a panic when `peers` is `None`) and the per-peer setup loop. -/
def runStartup (interface : Option Interface) (peers : Option (List Peer)) :
    RunOutcome StartupState :=
  match interface with
  | Option.none => RunOutcome.err "Missing interface"
  | Option.some ifc =>
    match ifc.address with
    | Option.none => RunOutcome.err "Interface missing address"
    | Option.some addr =>
      match peers with
      | Option.none => RunOutcome.panicked
      | Option.some ps => setupPeers ifc.private_key addr.1 0 ⟨[], [], [], []⟩ ps

/-- The range-list entries contributed by a peer list whose first peer gets
index `idx`, in registration order (peer order, then range order). -/
def registrationFrom (idx : Nat) : List Peer → List ((Nat × Nat) × Nat)
  | [] => []
  | p :: rest =>
    (p.allowed_ips.getD []).map (fun r => (r, idx)) ++
      registrationFrom (idx + 1) rest

/-- The routes installed by the setup loop, in installation order. -/
def installedRoutes (ifaceAddr : Nat) : List Peer → List Route
  | [] => []
  | p :: rest =>
    (p.allowed_ips.getD []).map (fun r =>
      { destination := r.1, mask := r.2, gateway := ifaceAddr, metric := 0 }) ++
      installedRoutes ifaceAddr rest

/-- Outbound dispatch (wireguard.rs lines 268-280): the tun receive loop
hands every packet to the peer of the first range-list entry — the packet
content, in particular its destination address, is not examined. -/
def dispatchOutbound {α : Type} (allowedMap : List ((Nat × Nat) × α))
    (_packet : List Nat) : Option α :=
  allowedMap.head?.map Prod.snd

/-- Association-list lookup, mirroring `DashMap::get`. -/
def lookupAssoc {α : Type} : List (Nat × α) → Nat → Option α
  | [], _ => Option.none
  | kv :: rest, k => if kv.1 = k then some kv.2 else lookupAssoc rest k

/-- Inbound dispatch (wireguard.rs lines 256-266): look the sender up in
the endpoint map; on a hit invoke the peer's socket-packet handler (its
error, if any, is only printed), on a miss do nothing. -/
def dispatchInbound (emap : List (Nat × Peer)) (ep : Nat) (buf : List Nat) :
    List (Except String (List Send)) :=
  match lookupAssoc emap ep with
  | Option.some peer => [handle_socket_packet peer buf]
  | Option.none => []

/-- The socket receive loop over a list of received datagrams: each
datagram is dispatched and the loop continues with the next receive. -/
def socketRecvLoop (emap : List (Nat × Peer)) :
    List (Nat × List Nat) → List (Except String (List Send))
  | [] => []
  | d :: rest => dispatchInbound emap d.1 d.2 ++ socketRecvLoop emap rest

/-- The shutdown loop of `run` (wireguard.rs lines 295-299): repeatedly
`pop` the route stack and attempt deletion; `Vec::pop` takes the last
element, so repeated popping traverses the reversal of the stack.  Each
attempt records the external deletion result; a failure is only logged and
the loop continues. -/
def shutdownGo (del : Route → Bool) : List Route → List (Route × Bool)
  | [] => []
  | r :: rest => (r, del r) :: shutdownGo del rest

/-- Route teardown: attempt deletion of every stacked route, last pushed
first. -/
def shutdownRoutes (del : Route → Bool) (stack : List Route) :
    List (Route × Bool) :=
  shutdownGo del stack.reverse

/-- Is an `Except` value a success? -/
def exceptIsOk {ε α : Type} : Except ε α → Bool
  | Except.ok _ => true
  | Except.error _ => false

/-- Number of `[Peer]` section-header lines of a configuration. -/
def countPeerHeaders : List Str → Nat
  | [] => 0
  | l :: rest =>
    (if parse_section_header (trim l) = some Section.peer then 1 else 0) +
      countPeerHeaders rest

/-- Number of `[Interface]` section-header lines of a configuration. -/
def countInterfaceHeaders : List Str → Nat
  | [] => 0
  | l :: rest =>
    (if parse_section_header (trim l) = some Section.interface then 1 else 0) +
      countInterfaceHeaders rest

/-- The first section header of a configuration, in line order. -/
def firstHeader : List Str → Option Section
  | [] => Option.none
  | l :: rest =>
    match parse_section_header (trim l) with
    | Option.some s => some s
    | Option.none => firstHeader rest

/-- A line the `from_content` loop passes over without effect: blank,
comment, or neither a section header nor a key-value line. -/
def ignorableLine (l : Str) : Prop :=
  trim l = [] ∨ (trim l).head? = some '#' ∨
    (parse_section_header (trim l) = Option.none ∧
     parse_key_value (trim l) = Option.none)

/-- Number of completed peers held in a `WireGuard` value. -/
def peersLen (wg : WireGuard) : Nat := (wg.peers.getD []).length

/-- Number of peers of a loop state: completed ones plus the pending one. -/
def totalCount (st : LoopState) : Nat :=
  peersLen st.wg + (if st.curPeer.isSome then 1 else 0)

/-- A permissive concrete instantiation of the external parsing
primitives, for evaluating the parser on concrete configurations. -/
def prims0 : Prims :=
  { base64Decode := fun _ => some (List.replicate 32 0)
    curveCheck := fun _ => true
    parseIp := fun _ => some 7
    parseU8 := fun _ => some 24
    parseU16 := fun _ => some 51821
    resolveEndpoint := fun _ => Except.ok 9 }

/-- A configuration whose first section header is `[Peer]`. -/
def demoPeerFirst : List Str := [("[Peer]").toList, ("PublicKey=x").toList]

/-- A demo engine: decapsulation and encapsulation answer
`WriteToNetwork`, two buffered drain packets, timers answer
`WriteToNetwork`, one fresh handshake initiation queued. -/
def demoTunn : Tunn :=
  { decapsulate := fun _ => TunnResult.writeToNetwork [1]
    drainQueue := [TunnResult.writeToNetwork [2], TunnResult.writeToNetwork [3],
                   TunnResult.done, TunnResult.writeToNetwork [4]]
    encapsulate := fun _ => TunnResult.writeToNetwork [5]
    update_timers := TunnResult.err WireGuardError.connectionExpired
    fhiQueue := [TunnResult.writeToNetwork [6]] }

/-- A fully wired demo peer session. -/
def demoPeer : Peer :=
  { public_key := some (List.replicate 32 1)
    allowed_ips := some [(10, 24), (20, 32)]
    persistent_keepalive := some 25
    endpoint := some 42
    send_socket := some ()
    send_tun := some ()
    tunn := some demoTunn }

/-- A second demo peer whose first allowed range overlaps `demoPeer`'s. -/
def demoPeer2 : Peer :=
  { demoPeer with endpoint := some 43, allowed_ips := some [(10, 24)] }

/-- A demo interface descriptor. -/
def demoInterface : Interface :=
  { private_key := some (List.replicate 32 2)
    address := some (99, 24)
    dns := Option.none
    listen_port := some 51821 }

/-- `demoPeer` without configured allowed ranges. -/
def demoPeerNoIps : Peer := { demoPeer with allowed_ips := Option.none }

/-- `demoPeer` without the shared socket handle. -/
def demoPeerNoSocket : Peer := { demoPeer with send_socket := Option.none }

/-- The dispatch state `runStartup` builds for `[demoPeer, demoPeer2]`. -/
def demoState : StartupState :=
  { endpointMap := [(42, 0), (43, 1)]
    allowedMap := [((10, 24), 0), ((20, 32), 0), ((10, 24), 1)]
    routeStack :=
      [{ destination := 10, mask := 24, gateway := 99, metric := 0 },
       { destination := 20, mask := 32, gateway := 99, metric := 0 },
       { destination := 10, mask := 24, gateway := 99, metric := 0 }]
    routinePeers := [0, 1] }

/-- A well-formed configuration with one interface and two peer sections. -/
def demoGood : List Str :=
  [("[Interface]").toList, ("Address=10.0.0.1/24").toList,
   ("[Peer]").toList, ("AllowedIPs=10.0.0.2/32").toList,
   ("[Peer]").toList, ("PublicKey=abc").toList]

/-- The parse of `demoGood` under `prims0`. -/
def demoGoodWG : WireGuard :=
  { interface := some { private_key := Option.none, address := some (7, 24)
                        dns := Option.none, listen_port := Option.none }
    peers := some [{ Peer.new with allowed_ips := some [(7, 24)] },
                   { Peer.new with public_key := some (List.replicate 32 0) }] }

/-- A configuration holding an unknown section header. -/
def demoUnknownSection : List Str :=
  [("[Interface]").toList, ("[Foo]").toList]

/-- A configuration whose first line is a key-value line. -/
def demoKvFirst : List Str := [("A=b").toList]

lemma drainSends_eq_takeWhile (ep : Nat) (q : List TunnResult) :
    drainSends ep q =
      (q.takeWhile (fun r => isWTN r)).map
        (fun r => Send.toSocket ep (wtnPacket r)) := by
  induction q with
  | nil => rfl
  | cons r rest ih =>
    cases r <;> simp [drainSends, List.takeWhile_cons, isWTN, wtnPacket, ih]

lemma drainSends_stops (ep : Nat) (q1 : List TunnResult) (r : TunnResult)
    (q2 : List TunnResult) (h1 : ∀ x ∈ q1, isWTN x = true)
    (h2 : isWTN r = false) :
    drainSends ep (q1 ++ r :: q2) =
      q1.map (fun x => Send.toSocket ep (wtnPacket x)) := by
  induction q1 with
  | nil =>
    cases r <;> simp [isWTN] at h2 <;> rfl
  | cons x xs ih =>
    have hx : isWTN x = true := h1 x (List.mem_cons_self x xs)
    cases x with
    | writeToNetwork p =>
      simp only [List.cons_append, drainSends, List.map_cons, wtnPacket]
      exact congrArg _ (ih (fun y hy => h1 y (List.mem_cons_of_mem _ hy)))
    | writeToTunnelV4 p a => simp [isWTN] at hx
    | writeToTunnelV6 p a => simp [isWTN] at hx
    | done => simp [isWTN] at hx
    | err e => simp [isWTN] at hx

/-- C3: when the inbound handler's decapsulation of a datagram yields
WriteToNetwork, the handler performs exactly one send of those bytes to the
peer's endpoint, followed by one drain send per leading WriteToNetwork
result of empty-input decapsulation, stopping at the first empty-input
result that is not WriteToNetwork. -/
theorem c3_inbound_drain (p : Peer) (e : Tunn) (src packet : List Nat)
    (ep : Nat) (ht : p.tunn = some e) (hs : p.send_socket = some ())
    (hep : p.endpoint = some ep)
    (hd : e.decapsulate src = TunnResult.writeToNetwork packet) :
    handle_socket_packet p src =
      Except.ok (Send.toSocket ep packet ::
        (e.drainQueue.takeWhile (fun r => isWTN r)).map
          (fun r => Send.toSocket ep (wtnPacket r))) ∧
    (∀ q1 r q2, e.drainQueue = q1 ++ r :: q2 → (∀ x ∈ q1, isWTN x = true) →
      isWTN r = false →
      drainSends ep e.drainQueue =
        q1.map (fun x => Send.toSocket ep (wtnPacket x))) := by
  constructor
  · simp [handle_socket_packet, ht, hd, hs, hep, drainSends_eq_takeWhile]
  · intro q1 r q2 hq hall hr
    rw [hq]
    exact drainSends_stops ep q1 r q2 hall hr

/-- Witness for C3 at a concrete wired peer and engine. -/
theorem c3_witness :
    handle_socket_packet demoPeer [9] =
      Except.ok [Send.toSocket 42 [1], Send.toSocket 42 [2],
                 Send.toSocket 42 [3]] := by
  have h := (c3_inbound_drain demoPeer demoTunn [9] [1] 42 rfl rfl rfl rfl).1
  rw [h]
  rfl

/-- C5 counterexample: a session whose engine handle is missing does not
signal an error — all three handlers silently succeed on `Peer.new`. -/
theorem c5_counterexample :
    handle_socket_packet Peer.new [] = Except.ok [] ∧
    handle_tun_packet Peer.new [] = Except.ok [] ∧
    handle_routine_task Peer.new = Except.ok [] :=
  ⟨rfl, rfl, rfl⟩

/-- C5 (amended): a missing engine handle makes each of the three handlers
a silent no-op; when the engine is present and its result requires a
network send, a missing socket handle or a missing endpoint is signalled
as an error. -/
theorem c5_missing_handles :
    (∀ (p : Peer) (src : List Nat), p.tunn = Option.none →
      handle_socket_packet p src = Except.ok [] ∧
      handle_tun_packet p src = Except.ok [] ∧
      handle_routine_task p = Except.ok []) ∧
    (∀ (p : Peer) (e : Tunn) (src pk : List Nat), p.tunn = some e →
      e.decapsulate src = TunnResult.writeToNetwork pk →
      (p.send_socket = Option.none →
        handle_socket_packet p src = Except.error "Missing send socket") ∧
      (p.send_socket = some () → p.endpoint = Option.none →
        handle_socket_packet p src = Except.error "Missing endpoint")) ∧
    (∀ (p : Peer) (e : Tunn) (src pk : List Nat), p.tunn = some e →
      e.encapsulate src = TunnResult.writeToNetwork pk →
      (p.send_socket = Option.none →
        handle_tun_packet p src = Except.error "Udp socket not found") ∧
      (p.send_socket = some () → p.endpoint = Option.none →
        handle_tun_packet p src = Except.error "Missing endpoint")) ∧
    (∀ (p : Peer) (e : Tunn) (pk : List Nat), p.tunn = some e →
      e.update_timers = TunnResult.writeToNetwork pk →
      (p.send_socket = Option.none →
        handle_routine_task p = Except.error "Udp socket not found") ∧
      (p.send_socket = some () → p.endpoint = Option.none →
        handle_routine_task p = Except.error "Missing endpoint")) := by
  refine ⟨?_, ?_, ?_, ?_⟩
  · intro p src ht
    exact ⟨by simp [handle_socket_packet, ht], by simp [handle_tun_packet, ht],
           by simp [handle_routine_task, ht]⟩
  · intro p e src pk ht hd
    exact ⟨fun hs => by simp [handle_socket_packet, ht, hd, hs],
           fun hs hep => by simp [handle_socket_packet, ht, hd, hs, hep]⟩
  · intro p e src pk ht hd
    exact ⟨fun hs => by simp [handle_tun_packet, ht, hd, hs],
           fun hs hep => by simp [handle_tun_packet, ht, hd, hs, hep]⟩
  · intro p e pk ht hd
    exact ⟨fun hs => by
            simp [handle_routine_task, ht, hd, handle_routine_task_result, hs],
           fun hs hep => by
            simp [handle_routine_task, ht, hd, handle_routine_task_result,
                  hs, hep]⟩

/-- Witness for C5 at a concrete peer missing only the socket handle. -/
theorem c5_witness :
    handle_socket_packet demoPeerNoSocket [9] =
      Except.error "Missing send socket" :=
  ((c5_missing_handles.2.1 demoPeerNoSocket demoTunn [9] [1] rfl rfl).1) rfl

/-- C6: on Err(ConnectionExpired) the housekeeping result handler consumes
exactly one fresh handshake-initiation result and re-enters itself once
with it; when that fresh result is not itself ConnectionExpired the
handling of it never touches the handshake queue again, so the recursion
stops after that single extra step. -/
theorem c6_routine_termination (p : Peer) (q : List TunnResult)
    (r1 : TunnResult) :
    handle_routine_task_result p (r1 :: q)
        (TunnResult.err WireGuardError.connectionExpired) =
      handle_routine_task_result p q r1 ∧
    (r1 ≠ TunnResult.err WireGuardError.connectionExpired →
      ∀ q2, handle_routine_task_result p q r1 =
        handle_routine_task_result p q2 r1) := by
  constructor
  · rfl
  · intro hne q2
    cases r1 with
    | writeToNetwork pk => simp [handle_routine_task_result]
    | writeToTunnelV4 pk a => simp [handle_routine_task_result]
    | writeToTunnelV6 pk a => simp [handle_routine_task_result]
    | done => simp [handle_routine_task_result]
    | err e =>
      cases e with
      | connectionExpired => exact absurd rfl hne
      | otherErr c => simp [handle_routine_task_result]

/-- Witness for C6: one expiry step at a concrete peer. -/
theorem c6_witness :
    handle_routine_task_result demoPeer [] (TunnResult.writeToNetwork [6]) =
      handle_routine_task_result demoPeer [TunnResult.done]
        (TunnResult.writeToNetwork [6]) :=
  (c6_routine_termination demoPeer [] (TunnResult.writeToNetwork [6])).2
    (by decide) [TunnResult.done]

/-- C8: a datagram from a source address absent from the endpoint map
invokes no peer session handler and produces no error, and the receive
loop goes on to the next datagram unchanged. -/
theorem c8_unknown_endpoint_drop (emap : List (Nat × Peer)) (ep : Nat)
    (buf : List Nat) (h : lookupAssoc emap ep = Option.none) :
    dispatchInbound emap ep buf = [] ∧
    (∀ rest, socketRecvLoop emap ((ep, buf) :: rest) =
      socketRecvLoop emap rest) := by
  constructor
  · simp [dispatchInbound, h]
  · intro rest
    simp [socketRecvLoop, dispatchInbound, h]

/-- Witness for C8 at a concrete one-entry endpoint map. -/
theorem c8_witness : dispatchInbound [(1, Peer.new)] 2 [3] = [] :=
  (c8_unknown_endpoint_drop [(1, Peer.new)] 2 [3] rfl).1

lemma foldl_pushRange (iaddr idx : Nat) (ips : List (Nat × Nat)) :
    ∀ st : StartupState,
      ips.foldl (pushRange iaddr idx) st =
        { st with
          routeStack := st.routeStack ++ ips.map (fun ip =>
            { destination := ip.1, mask := ip.2, gateway := iaddr
              metric := 0 })
          allowedMap := st.allowedMap ++ ips.map (fun ip => (ip, idx)) } := by
  induction ips with
  | nil => intro st; simp
  | cons ip rest ih =>
    intro st
    rw [List.foldl_cons, ih]
    simp [pushRange, List.append_assoc]

lemma setupPeers_ok (iaddr : Nat) :
    ∀ (ps : List Peer) (pkOpt : Option (List Nat)) (idx : Nat)
      (st st' : StartupState),
      setupPeers pkOpt iaddr idx st ps = RunOutcome.ok st' →
      st'.allowedMap = st.allowedMap ++ registrationFrom idx ps ∧
      st'.routeStack = st.routeStack ++ installedRoutes iaddr ps := by
  intro ps
  induction ps with
  | nil =>
    intro pkOpt idx st st' h
    simp only [setupPeers] at h
    cases h
    simp [registrationFrom, installedRoutes]
  | cons p rest ih =>
    intro pkOpt idx st st' h
    cases pkOpt with
    | none => simp [setupPeers] at h
    | some pk =>
      cases hpub : p.public_key with
      | none => simp [setupPeers, hpub] at h
      | some k =>
        cases hips : p.allowed_ips with
        | none => simp [setupPeers, hpub, hips] at h
        | some ips =>
          simp only [setupPeers, hpub, hips] at h
          rw [foldl_pushRange] at h
          obtain ⟨h1, h2⟩ := ih (some pk) (idx + 1) _ st' h
          cases hep : p.endpoint <;>
            rw [hep] at h1 h2 <;>
            simp only at h1 h2 <;>
            constructor <;>
            simp [h1, h2, registrationFrom, installedRoutes, hips,
                  List.append_assoc]

lemma mem_registrationFrom :
    ∀ (ps : List Peer) (idx i : Nat) (p : Peer) (r : Nat × Nat),
      ps[i]? = some p → r ∈ p.allowed_ips.getD [] →
      (r, idx + i) ∈ registrationFrom idx ps := by
  intro ps
  induction ps with
  | nil => intro idx i p r h; simp at h
  | cons q rest ih =>
    intro idx i p r h hr
    cases i with
    | zero =>
      simp at h
      subst h
      simp only [registrationFrom, Nat.add_zero]
      exact List.mem_append_left _ (List.mem_map_of_mem _ hr)
    | succ i =>
      simp at h
      have := ih (idx + 1) i p r (by simpa using h) hr
      simp only [registrationFrom]
      refine List.mem_append_right _ ?_
      have harith : idx + (i + 1) = (idx + 1) + i := by omega
      rw [harith]
      exact this

/-- C1: outbound dispatch sends every tun packet to the peer session of the
first range-list entry, independent of the packet's destination; the range
list holds one entry per (peer, allowed range) pair in registration order,
so overlapping ranges of two peers both register, and whenever the first
configured peer has a first allowed range, peer 0 receives every outbound
packet. -/
theorem c1_outbound_first_entry (ifc : Interface) (ps : List Peer)
    (st : StartupState)
    (h : runStartup (some ifc) (some ps) = RunOutcome.ok st) :
    st.allowedMap = registrationFrom 0 ps ∧
    (∀ packet, dispatchOutbound st.allowedMap packet =
      st.allowedMap.head?.map Prod.snd) ∧
    (∀ i p r, ps[i]? = some p → r ∈ p.allowed_ips.getD [] →
      (r, i) ∈ st.allowedMap) ∧
    (∀ p0 r rest packet, ps.head? = some p0 →
      p0.allowed_ips = some (r :: rest) →
      dispatchOutbound st.allowedMap packet = some 0) := by
  simp only [runStartup] at h
  cases haddr : ifc.address with
  | none => rw [haddr] at h; cases h
  | some addr =>
    rw [haddr] at h
    have hmap := (setupPeers_ok addr.1 ps ifc.private_key 0 ⟨[], [], [], []⟩ st h).1
    simp only [List.nil_append] at hmap
    refine ⟨hmap, fun packet => rfl, ?_, ?_⟩
    · intro i p r hi hr
      rw [hmap]
      simpa using mem_registrationFrom ps 0 i p r hi hr
    · intro p0 r rest packet hp0 hips
      cases ps with
      | nil => simp at hp0
      | cons q tail =>
        simp at hp0
        subst hp0
        rw [dispatchOutbound, hmap]
        simp [registrationFrom, hips]

/-- Witness for C1 at two concrete peers with overlapping ranges. -/
theorem c1_witness : dispatchOutbound demoState.allowedMap [77] = some 0 :=
  (c1_outbound_first_entry demoInterface [demoPeer, demoPeer2] demoState
    (by rfl)).2.2.2 demoPeer (10, 24) [(20, 32)] [77] rfl rfl

lemma shutdownGo_map_fst (del : Route → Bool) :
    ∀ l : List Route, (shutdownGo del l).map Prod.fst = l := by
  intro l
  induction l with
  | nil => rfl
  | cons r rest ih => simp [shutdownGo, ih]

/-- C4: shutdown pops the route stack, so for routes installed in order
R1..Rn the removal attempts happen in exactly the order Rn..R1, each route
is attempted no matter which deletions fail (the attempt list does not
depend on the deletion outcomes), and on a successful startup the stack is
exactly the installed-routes list in installation order. -/
theorem c4_route_lifo :
    (∀ (del : Route → Bool) (stack : List Route),
      (shutdownRoutes del stack).map Prod.fst = stack.reverse) ∧
    (∀ (ifc : Interface) (ps : List Peer) (st : StartupState)
      (addr : Nat × Nat) (del : Route → Bool), ifc.address = some addr →
      runStartup (some ifc) (some ps) = RunOutcome.ok st →
      st.routeStack = installedRoutes addr.1 ps ∧
      (shutdownRoutes del st.routeStack).map Prod.fst =
        (installedRoutes addr.1 ps).reverse) := by
  have hmap : ∀ (del : Route → Bool) (stack : List Route),
      (shutdownRoutes del stack).map Prod.fst = stack.reverse := by
    intro del stack
    rw [shutdownRoutes, shutdownGo_map_fst]
  refine ⟨hmap, ?_⟩
  intro ifc ps st addr del haddr h
  simp only [runStartup, haddr] at h
  have hstack :=
    (setupPeers_ok addr.1 ps ifc.private_key 0 ⟨[], [], [], []⟩ st h).2
  simp only [List.nil_append] at hstack
  exact ⟨hstack, by rw [hmap, hstack]⟩

/-- Witness for C4: all removals fail, yet every route of the demo stack
is attempted, in reverse installation order. -/
theorem c4_witness :
    (shutdownRoutes (fun _ => false) demoState.routeStack).map Prod.fst =
      (installedRoutes 99 [demoPeer, demoPeer2]).reverse :=
  ((c4_route_lifo).2 demoInterface [demoPeer, demoPeer2] demoState (99, 24)
    (fun _ => false) rfl (by rfl)).2

/-- C9: `run` is not total over parsed configurations — a peer without
AllowedIPs panics through `unwrap` of `None` during setup, while a missing
interface, interface address, interface private key or peer public key
each yield an error result instead. -/
theorem c9_missing_allowed_ips_panics :
    (∀ (ifc : Interface) (addr : Nat × Nat) (pk k : List Nat) (p : Peer)
      (ps : List Peer), ifc.address = some addr →
      ifc.private_key = some pk → p.public_key = some k →
      p.allowed_ips = Option.none →
      runStartup (some ifc) (some (p :: ps)) = RunOutcome.panicked) ∧
    (∀ ps, runStartup Option.none ps = RunOutcome.err "Missing interface") ∧
    (∀ (ifc : Interface) ps, ifc.address = Option.none →
      runStartup (some ifc) ps = RunOutcome.err "Interface missing address") ∧
    (∀ (ifc : Interface) (addr : Nat × Nat) (p : Peer) (ps : List Peer),
      ifc.address = some addr → ifc.private_key = Option.none →
      runStartup (some ifc) (some (p :: ps)) =
        RunOutcome.err "Missing interface private key") ∧
    (∀ (ifc : Interface) (addr : Nat × Nat) (pk : List Nat) (p : Peer)
      (ps : List Peer), ifc.address = some addr →
      ifc.private_key = some pk → p.public_key = Option.none →
      runStartup (some ifc) (some (p :: ps)) =
        RunOutcome.err "Missing peer public key") := by
  refine ⟨?_, ?_, ?_, ?_, ?_⟩
  · intro ifc addr pk k p ps haddr hpk hpub hips
    simp [runStartup, haddr, hpk, setupPeers, hpub, hips]
  · intro ps; rfl
  · intro ifc ps haddr; simp [runStartup, haddr]
  · intro ifc addr p ps haddr hpk
    simp [runStartup, haddr, hpk, setupPeers]
  · intro ifc addr pk p ps haddr hpk hpub
    simp [runStartup, haddr, hpk, setupPeers, hpub]

/-- Witness for C9 at a concrete peer missing only its allowed ranges. -/
theorem c9_witness :
    runStartup (some demoInterface) (some [demoPeerNoIps]) =
      RunOutcome.panicked :=
  c9_missing_allowed_ips_panics.1 demoInterface (99, 24)
    (List.replicate 32 2) (List.replicate 32 1) demoPeerNoIps [] rfl rfl rfl
    rfl

lemma psh_head (s : Str) (sec : Section)
    (h : parse_section_header s = some sec) : s.head? = some '[' := by
  by_cases hc : s.head? = some '[' ∧ s.getLast? = some ']'
  · exact hc.1
  · unfold parse_section_header at h
    rw [if_neg hc] at h
    cases h

lemma psh_nil : parse_section_header [] = Option.none := by decide

lemma psh_none_of_hash (s : Str) (h : s.head? = some '#') :
    parse_section_header s = Option.none := by
  unfold parse_section_header
  rw [if_neg]
  rintro ⟨h1, _⟩
  rw [h] at h1
  exact absurd h1 (by decide)

lemma pkv_nil : parse_key_value [] = Option.none := rfl

lemma processLine_skip (prims : Prims) (st : LoopState) (l : Str)
    (h : ignorableLine l) : processLine prims st l = Except.ok st := by
  rcases h with h | h | ⟨h1, h2⟩
  · simp [processLine, h]
  · have hne : trim l ≠ [] := by
      intro h0
      rw [h0] at h
      cases h
    simp [processLine, hne, h]
  · by_cases hne : trim l = []
    · simp [processLine, hne]
    · by_cases hh : (trim l).head? = some '#'
      · simp [processLine, hne, hh]
      · simp [processLine, hne, hh, h1, h2]

lemma processLine_of_unknown (prims : Prims) (st : LoopState) (l : Str)
    (h : parse_section_header (trim l) = some Section.none) :
    processLine prims st l = Except.error "Unexpected session" := by
  have hhd := psh_head _ _ h
  have hne : trim l ≠ [] := by
    intro h0
    rw [h0] at hhd
    cases hhd
  have hnh : (trim l).head? ≠ some '#' := by
    rw [hhd]
    decide
  simp [processLine, hne, hnh, h]

lemma processLine_iface_err (prims : Prims) (st : LoopState) (l : Str)
    (h : parse_section_header (trim l) = some Section.interface)
    (hs : st.curSection ≠ Section.none) :
    processLine prims st l =
      Except.error "The First Section must be [Interface]" := by
  have hhd := psh_head _ _ h
  have hne : trim l ≠ [] := by
    intro h0
    rw [h0] at hhd
    cases hhd
  have hnh : (trim l).head? ≠ some '#' := by
    rw [hhd]
    decide
  simp [processLine, hne, hnh, h, hs]

lemma processLine_peer_err (prims : Prims) (st : LoopState) (l : Str)
    (h : parse_section_header (trim l) = some Section.peer)
    (hs : st.curSection = Section.none) :
    processLine prims st l =
      Except.error "Setup [Interface] before [Peer]" := by
  have hhd := psh_head _ _ h
  have hne : trim l ≠ [] := by
    intro h0
    rw [h0] at hhd
    cases hhd
  have hnh : (trim l).head? ≠ some '#' := by
    rw [hhd]
    decide
  simp [processLine, hne, hnh, h, hs]

lemma processLine_kv_none_section (prims : Prims) (st : LoopState) (l : Str)
    (kv : Str × List Str) (hs : st.curSection = Section.none)
    (hh : parse_section_header (trim l) = Option.none)
    (hkv : parse_key_value (trim l) = some kv)
    (hnh : (trim l).head? ≠ some '#') :
    processLine prims st l = Except.error "Unexpected session" := by
  have hne : trim l ≠ [] := by
    intro h0
    rw [h0, pkv_nil] at hkv
    cases hkv
  simp [processLine, hne, hnh, hh, hkv, hs]

lemma processLine_ok_shape (prims : Prims) (st : LoopState) (l : Str)
    (st2 : LoopState) (h : processLine prims st l = Except.ok st2) :
    (parse_section_header (trim l) = Option.none ∧ st2.wg = st.wg ∧
     st2.curSection = st.curSection ∧
     st2.curPeer.isSome = st.curPeer.isSome) ∨
    (parse_section_header (trim l) = some Section.interface ∧
     st.curSection = Section.none ∧
     st2 = { st with curSection := Section.interface }) ∨
    (parse_section_header (trim l) = some Section.peer ∧
     st.curSection ≠ Section.none ∧
     st2 = { st with
              wg := (match st.curPeer with
                     | Option.some p => addPeer st.wg p
                     | Option.none => st.wg)
              curPeer := some Peer.new, curSection := Section.peer }) := by
  by_cases hne : trim l = []
  · left
    have h2 : st = st2 := by simpa [processLine, hne] using h
    rw [← h2, hne]
    exact ⟨psh_nil, rfl, rfl, rfl⟩
  · by_cases hsh : (trim l).head? = some '#'
    · left
      have h2 : st = st2 := by simpa [processLine, hne, hsh] using h
      rw [← h2]
      exact ⟨psh_none_of_hash _ hsh, rfl, rfl, rfl⟩
    · cases hpsh : parse_section_header (trim l) with
      | some sec =>
        cases sec with
        | interface =>
          by_cases hs : st.curSection = Section.none
          · right; left
            refine ⟨rfl, hs, ?_⟩
            simp only [processLine, hne, hsh, hpsh, hs] at h
            simpa using h.symm
          · rw [processLine_iface_err prims st l hpsh hs] at h
            cases h
        | peer =>
          by_cases hs : st.curSection = Section.none
          · rw [processLine_peer_err prims st l hpsh hs] at h
            cases h
          · right; right
            refine ⟨rfl, hs, ?_⟩
            simp only [processLine, hne, hsh, hpsh, hs] at h
            simpa using h.symm
        | none =>
          rw [processLine_of_unknown prims st l hpsh] at h
          cases h
      | none =>
        left
        refine ⟨rfl, ?_⟩
        cases hkv : parse_key_value (trim l) with
        | none =>
          simp only [processLine, hne, hsh, hpsh, hkv] at h
          have h2 : st = st2 := by simpa using h
          rw [← h2]
          exact ⟨rfl, rfl, rfl⟩
        | some kv =>
          cases hcs : st.curSection with
          | interface =>
            cases hik : handleInterfaceKey prims st.interface kv.1 kv.2 with
            | error e => simp [processLine, hne, hsh, hpsh, hkv, hcs, hik] at h
            | ok i =>
              simp only [processLine, hne, hsh, hpsh, hkv, hcs, hik] at h
              have h2 : LoopState.mk st.wg i st.curPeer st.curSection = st2 := by
                simpa [hcs] using h
              rw [← h2]
              exact ⟨rfl, by rw [hcs], rfl⟩
          | peer =>
            cases hcp : st.curPeer with
            | none => simp [processLine, hne, hsh, hpsh, hkv, hcs, hcp] at h
            | some p =>
              cases hpk : handlePeerKey prims p kv.1 kv.2 with
              | error e =>
                simp [processLine, hne, hsh, hpsh, hkv, hcs, hcp, hpk] at h
              | ok p2 =>
                simp only [processLine, hne, hsh, hpsh, hkv, hcs, hcp,
                           hpk] at h
                have h2 : LoopState.mk st.wg st.interface (some p2)
                    st.curSection = st2 := by
                  simpa [hcs] using h
                rw [← h2]
                exact ⟨rfl, by simp [hcs], by simp [hcp]⟩
          | none => simp [processLine, hne, hsh, hpsh, hkv, hcs] at h

lemma peersLen_addPeer (wg : WireGuard) (p : Peer) :
    peersLen (addPeer wg p) = peersLen wg + 1 := by
  cases hp : wg.peers <;> simp [peersLen, addPeer, hp]

lemma addPeer_peers (wg : WireGuard) (p : Peer) (acc : List Peer)
    (h : wg.peers = some acc) : (addPeer wg p).peers = some (acc ++ [p]) := by
  simp [addPeer, h]

lemma processLine_count (prims : Prims) (st : LoopState) (l : Str)
    (st2 : LoopState) (h : processLine prims st l = Except.ok st2) :
    totalCount st2 = totalCount st +
      (if parse_section_header (trim l) = some Section.peer then 1 else 0) := by
  rcases processLine_ok_shape prims st l st2 h with
    ⟨hh, hwg, _, hcp⟩ | ⟨hh, _, hst⟩ | ⟨hh, _, hst⟩
  · rw [hh]
    simp [totalCount, hwg, hcp]
  · rw [hh]
    simp only [totalCount, hst]
    simp
  · rw [hh]
    simp only [totalCount, hst]
    cases hcp : st.curPeer with
    | none => simp [hcp]
    | some p => simp [hcp, peersLen_addPeer]

lemma processLine_append (prims : Prims) (st : LoopState) (l : Str)
    (st2 : LoopState) (acc : List Peer) (h : processLine prims st l = Except.ok st2)
    (hacc : st.wg.peers = some acc) :
    ∃ extra, st2.wg.peers = some (acc ++ extra) := by
  rcases processLine_ok_shape prims st l st2 h with
    ⟨_, hwg, _, _⟩ | ⟨_, _, hst⟩ | ⟨_, _, hst⟩
  · exact ⟨[], by rw [hwg, hacc, List.append_nil]⟩
  · exact ⟨[], by rw [hst]; simpa using hacc⟩
  · rw [hst]
    cases hcp : st.curPeer with
    | none => exact ⟨[], by simpa using hacc⟩
    | some p => exact ⟨[p], by simpa using addPeer_peers st.wg p acc hacc⟩

lemma peersLen_finishParse (st : LoopState) :
    peersLen (finishParse st) = totalCount st := by
  unfold finishParse totalCount
  cases hcp : st.curPeer with
  | none => simp [peersLen]
  | some p =>
    have := peersLen_addPeer st.wg p
    simp only [peersLen] at this ⊢
    simp [this]

lemma finishParse_peers (st : LoopState) (acc : List Peer)
    (h : st.wg.peers = some acc) :
    ∃ extra, (finishParse st).peers = some (acc ++ extra) := by
  unfold finishParse
  cases hcp : st.curPeer with
  | none => exact ⟨[], by simpa using h⟩
  | some p => exact ⟨[p], by simpa using addPeer_peers st.wg p acc h⟩

lemma parseLoop_count (prims : Prims) :
    ∀ (lines : List Str) (st : LoopState) (wg : WireGuard),
      parseLoop prims st lines = Except.ok wg →
      peersLen wg = totalCount st + countPeerHeaders lines := by
  intro lines
  induction lines with
  | nil =>
    intro st wg h
    simp only [parseLoop] at h
    cases h
    simp [peersLen_finishParse, countPeerHeaders]
  | cons l rest ih =>
    intro st wg h
    simp only [parseLoop] at h
    cases hpl : processLine prims st l with
    | error e => rw [hpl] at h; cases h
    | ok st2 =>
      rw [hpl] at h
      have h1 := ih st2 wg h
      have h2 := processLine_count prims st l st2 hpl
      simp only [countPeerHeaders]
      omega

lemma parseLoop_append (prims : Prims) :
    ∀ (lines : List Str) (st : LoopState) (wg : WireGuard) (acc : List Peer),
      st.wg.peers = some acc → parseLoop prims st lines = Except.ok wg →
      ∃ extra, wg.peers = some (acc ++ extra) := by
  intro lines
  induction lines with
  | nil =>
    intro st wg acc hacc h
    simp only [parseLoop] at h
    cases h
    exact finishParse_peers st acc hacc
  | cons l rest ih =>
    intro st wg acc hacc h
    simp only [parseLoop] at h
    cases hpl : processLine prims st l with
    | error e => rw [hpl] at h; cases h
    | ok st2 =>
      rw [hpl] at h
      obtain ⟨e1, he1⟩ := processLine_append prims st l st2 acc hpl hacc
      obtain ⟨e2, he2⟩ := ih st2 wg (acc ++ e1) he1 h
      exact ⟨e1 ++ e2, by rw [he2, List.append_assoc]⟩

lemma parseLoop_interface (prims : Prims) :
    ∀ (lines : List Str) (st : LoopState) (wg : WireGuard),
      parseLoop prims st lines = Except.ok wg →
      wg.interface.isSome = true := by
  intro lines
  induction lines with
  | nil =>
    intro st wg h
    simp only [parseLoop] at h
    cases h
    simp [finishParse]
  | cons l rest ih =>
    intro st wg h
    simp only [parseLoop] at h
    cases hpl : processLine prims st l with
    | error e => rw [hpl] at h; cases h
    | ok st2 => rw [hpl] at h; exact ih st2 wg h

lemma parseLoop_err_unknown (prims : Prims) :
    ∀ (lines : List Str) (st : LoopState) (l : Str), l ∈ lines →
      parse_section_header (trim l) = some Section.none →
      exceptIsOk (parseLoop prims st lines) = false := by
  intro lines
  induction lines with
  | nil => intro st l h; cases h
  | cons a rest ih =>
    intro st l hmem hl
    rcases List.mem_cons.mp hmem with heq | hmem2
    · subst heq
      simp only [parseLoop, processLine_of_unknown prims st l hl]
      rfl
    · simp only [parseLoop]
      cases hpl : processLine prims st a with
      | error e => rfl
      | ok st2 => exact ih st2 l hmem2 hl

lemma parseLoop_err_iface_in_section (prims : Prims) :
    ∀ (lines : List Str) (st : LoopState), st.curSection ≠ Section.none →
      1 ≤ countInterfaceHeaders lines →
      exceptIsOk (parseLoop prims st lines) = false := by
  intro lines
  induction lines with
  | nil =>
    intro st _ hcnt
    simp [countInterfaceHeaders] at hcnt
  | cons l rest ih =>
    intro st hs hcnt
    by_cases hl : parse_section_header (trim l) = some Section.interface
    · simp only [parseLoop, processLine_iface_err prims st l hl hs]
      rfl
    · have hcnt2 : 1 ≤ countInterfaceHeaders rest := by
        simp only [countInterfaceHeaders, if_neg hl] at hcnt
        omega
      simp only [parseLoop]
      cases hpl : processLine prims st l with
      | error e => rfl
      | ok st2 =>
        refine ih st2 ?_ hcnt2
        rcases processLine_ok_shape prims st l st2 hpl with
          ⟨_, _, hsec, _⟩ | ⟨hh, _, _⟩ | ⟨_, _, hst⟩
        · rw [hsec]; exact hs
        · exact absurd hh hl
        · rw [hst]; simp

lemma parseLoop_err_two_iface (prims : Prims) :
    ∀ (lines : List Str) (st : LoopState), st.curSection = Section.none →
      2 ≤ countInterfaceHeaders lines →
      exceptIsOk (parseLoop prims st lines) = false := by
  intro lines
  induction lines with
  | nil =>
    intro st _ hcnt
    simp [countInterfaceHeaders] at hcnt
  | cons l rest ih =>
    intro st hs hcnt
    simp only [parseLoop]
    cases hpl : processLine prims st l with
    | error e => rfl
    | ok st2 =>
      rcases processLine_ok_shape prims st l st2 hpl with
        ⟨hh, _, hsec, _⟩ | ⟨hh, _, hst⟩ | ⟨hh, hsne, _⟩
      · have hcnt2 : 2 ≤ countInterfaceHeaders rest := by
          have : ¬ parse_section_header (trim l) = some Section.interface := by
            rw [hh]; simp
          simp only [countInterfaceHeaders, if_neg this] at hcnt
          omega
        exact ih st2 (by rw [hsec]; exact hs) hcnt2
      · have hcnt2 : 1 ≤ countInterfaceHeaders rest := by
          simp only [countInterfaceHeaders, if_pos hh] at hcnt
          omega
        refine parseLoop_err_iface_in_section prims rest st2 ?_ hcnt2
        rw [hst]
        simp
      · exact absurd hs hsne

lemma parseLoop_err_peer_first (prims : Prims) :
    ∀ (lines : List Str) (st : LoopState), st.curSection = Section.none →
      firstHeader lines = some Section.peer →
      exceptIsOk (parseLoop prims st lines) = false := by
  intro lines
  induction lines with
  | nil => intro st _ hfh; cases hfh
  | cons l rest ih =>
    intro st hs hfh
    simp only [parseLoop]
    cases hl : parse_section_header (trim l) with
    | some sec =>
      have hsec : sec = Section.peer := by
        simp only [firstHeader, hl] at hfh
        exact (Option.some.injEq _ _ ▸ hfh :)
      subst hsec
      rw [processLine_peer_err prims st l hl hs]
      rfl
    | none =>
      have hfh2 : firstHeader rest = some Section.peer := by
        simpa only [firstHeader, hl] using hfh
      cases hpl : processLine prims st l with
      | error e => rfl
      | ok st2 =>
        rcases processLine_ok_shape prims st l st2 hpl with
          ⟨_, _, hsec, _⟩ | ⟨hh, _, _⟩ | ⟨hh, _, _⟩
        · exact ih st2 (by rw [hsec]; exact hs) hfh2
        · rw [hl] at hh; cases hh
        · rw [hl] at hh; cases hh

lemma parseLoop_skip_pre (prims : Prims) :
    ∀ (pre : List Str) (st : LoopState) (lines : List Str),
      (∀ x ∈ pre, ignorableLine x) →
      parseLoop prims st (pre ++ lines) = parseLoop prims st lines := by
  intro pre
  induction pre with
  | nil => intro st lines _; rfl
  | cons a rest ih =>
    intro st lines hpre
    have ha : ignorableLine a := hpre a (List.mem_cons_self a rest)
    simp only [List.cons_append, parseLoop, processLine_skip prims st a ha]
    exact ih st lines (fun x hx => hpre x (List.mem_cons_of_mem _ hx))

/-- C2 counterexample: a key-value line before any section header is not
ignored — the parse fails with the Unexpected-session error. -/
theorem c2_counterexample :
    from_content prims0 demoKvFirst = Except.error "Unexpected session" := by
  rfl

/-- C2 (amended): a key-value line that appears before any section header
(preceded only by blank, comment, or otherwise-ignored lines) is a fatal
parse error (Unexpected session), not an ignored line. -/
theorem c2_keyvalue_before_section_fatal (prims : Prims) (pre : List Str)
    (l : Str) (rest : List Str) (hpre : ∀ x ∈ pre, ignorableLine x)
    (hh : parse_section_header (trim l) = Option.none)
    (hkv : (parse_key_value (trim l)).isSome = true)
    (hnh : (trim l).head? ≠ some '#') :
    from_content prims (pre ++ l :: rest) =
      Except.error "Unexpected session" := by
  obtain ⟨kv, hkv2⟩ := Option.isSome_iff_exists.mp hkv
  rw [from_content, parseLoop_skip_pre prims pre initState (l :: rest) hpre]
  simp only [parseLoop,
    processLine_kv_none_section prims initState l kv rfl hh hkv2 hnh]

/-- Witness for C2's amended statement: one comment line, then `A=b`. -/
theorem c2_witness :
    from_content prims0 ([("# note").toList] ++ ("A=b").toList :: []) =
      Except.error "Unexpected session" :=
  c2_keyvalue_before_section_fatal prims0 [("# note").toList]
    (("A=b").toList) []
    (by
      intro x hx
      rw [List.mem_singleton] at hx
      subst hx
      exact Or.inr (Or.inl (by rfl)))
    (by rfl) (by rfl) (by decide)

/-- C7: a successful parse yields exactly one interface descriptor and one
peer per `[Peer]` header; peers already completed are preserved in order,
each new one appended at the end (source order); a `[Peer]` header before
any `[Interface]` header fails, and so does a second `[Interface]`
header. -/
theorem c7_parse_shape (prims : Prims) (lines : List Str) :
    (∀ wg, from_content prims lines = Except.ok wg →
      wg.interface.isSome = true ∧
      ∃ ps, wg.peers = some ps ∧ ps.length = countPeerHeaders lines) ∧
    (∀ (st : LoopState) (rest : List Str) (wg : WireGuard)
      (acc : List Peer), st.wg.peers = some acc →
      parseLoop prims st rest = Except.ok wg →
      ∃ extra, wg.peers = some (acc ++ extra)) ∧
    (firstHeader lines = some Section.peer →
      exceptIsOk (from_content prims lines) = false) ∧
    (2 ≤ countInterfaceHeaders lines →
      exceptIsOk (from_content prims lines) = false) := by
  refine ⟨?_, ?_, ?_, ?_⟩
  · intro wg h
    have hint := parseLoop_interface prims lines initState wg h
    have hcnt := parseLoop_count prims lines initState wg h
    obtain ⟨extra, hex⟩ := parseLoop_append prims lines initState wg [] rfl h
    refine ⟨hint, extra, by simpa using hex, ?_⟩
    have hlen : peersLen wg = extra.length := by
      rw [peersLen, hex]
      simp
    rw [← hlen, hcnt]
    simp [totalCount, initState, peersLen, WireGuard.new]
  · intro st rest wg acc hacc h
    exact parseLoop_append prims rest st wg acc hacc h
  · intro h
    exact parseLoop_err_peer_first prims lines initState rfl h
  · intro h
    exact parseLoop_err_two_iface prims lines initState rfl h

/-- Witness for C7: a peer-first configuration fails; the two-peer demo
configuration parses to two peer descriptors. -/
theorem c7_witness :
    exceptIsOk (from_content prims0 demoPeerFirst) = false ∧
    (∃ ps, demoGoodWG.peers = some ps ∧
      ps.length = countPeerHeaders demoGood) :=
  ⟨(c7_parse_shape prims0 demoPeerFirst).2.2.1 (by rfl),
   ((c7_parse_shape prims0 demoGood).1 demoGoodWG (by rfl)).2⟩

/-- C10: a section header naming anything other than Interface or Peer is
a fatal parse error wherever it occurs; section-name matching lowercases
the bracket interior and trims whitespace inside the brackets, so
mixed-case, space-padded names are recognized. -/
theorem c10_unknown_section_fatal :
    (∀ (prims : Prims) (lines : List Str) (l : Str), l ∈ lines →
      parse_section_header (trim l) = some Section.none →
      exceptIsOk (from_content prims lines) = false) ∧
    (∀ inner : Str, (trim inner).map Char.toLower = ("interface").toList →
      parse_section_header (('[' :: inner) ++ [']']) =
        some Section.interface) ∧
    (∀ inner : Str, (trim inner).map Char.toLower = ("peer").toList →
      parse_section_header (('[' :: inner) ++ [']']) = some Section.peer) ∧
    (∀ inner : Str, (trim inner).map Char.toLower ≠ ("interface").toList →
      (trim inner).map Char.toLower ≠ ("peer").toList →
      parse_section_header (('[' :: inner) ++ [']']) = some Section.none) := by
  have hext : ∀ inner : Str,
      ((('[' :: inner) ++ [']']).drop 1).dropLast = inner := by
    intro inner
    show (inner ++ [']']).dropLast = inner
    exact List.dropLast_concat
  have hcond : ∀ inner : Str, (('[' :: inner) ++ [']']).head? = some '[' ∧
      (('[' :: inner) ++ [']']).getLast? = some ']' := by
    intro inner
    exact ⟨rfl, List.getLast?_concat _⟩
  refine ⟨?_, ?_, ?_, ?_⟩
  · intro prims lines l hmem hl
    exact parseLoop_err_unknown prims lines initState l hmem hl
  · intro inner h
    unfold parse_section_header
    rw [if_pos (hcond inner)]
    simp only [hext inner, h]
    simp
  · intro inner h
    unfold parse_section_header
    rw [if_pos (hcond inner)]
    simp only [hext inner, h]
    simp
  · intro inner h1 h2
    unfold parse_section_header
    rw [if_pos (hcond inner)]
    simp only [hext inner]
    rw [if_neg (by simpa using h1), if_neg (by simpa using h2)]

/-- Witness for C10: an unknown `[Foo]` section is fatal; a padded
mixed-case Interface header is recognized. -/
theorem c10_witness :
    exceptIsOk (from_content prims0 demoUnknownSection) = false ∧
    parse_section_header (('[' :: (" InTeRfAcE ").toList) ++ [']']) =
      some Section.interface :=
  ⟨c10_unknown_section_fatal.1 prims0 demoUnknownSection
    (("[Foo]").toList) (by decide) (by rfl),
   c10_unknown_section_fatal.2.1 ((" InTeRfAcE ").toList) (by rfl)⟩

end WG
